import Mathlib

/-!
# Verification of `guillotina_elasticsearch/commands/vacuum.py`

Shallow embedding of the vacuum reconciliation engine: the primary store
scanner (`Vacuum.iter_paged_db_keys`), the index scanner
(`Vacuum.iter_batched_es_keys`), the orphan reconciler
(`Vacuum.check_orphans`), the staleness reconciler (`Vacuum.check_missing`),
the object materializer (`Vacuum.get_object`) and the repair dispatch
(`Vacuum.process_missing`), together with the summary reporting of
`VacuumCommand.do_check`.

Database rows are modelled as `DBRecord` (columns `zoid`, `parent_id`,
`tid`, `of` of the objects table); the search index side is modelled by the
hit shapes the code reads (`ESHit` for the staleness query, `EsPage` /
`ScrollResp` for the scroll API). Machine-level details that the code never
touches (SQL execution, network transport) are modelled by the result
shapes the code consumes.
-/

set_option autoImplicit false

namespace Vacuum

/-- Page size used by all paged traversals (`PAGE_SIZE = 1000`, vacuum.py line 35). -/
def PAGE_SIZE : Nat := 1000

/-- `guillotina.db.ROOT_ID`: the zoid of the database root object (modelled
constant; imported by vacuum.py, value opaque to the vacuum logic). -/
def ROOT_ID : String := "00000000000000000000000000000000"

/-- `guillotina.db.TRASHED_ID`: the sentinel parent zoid for trashed objects
(modelled constant; imported by vacuum.py, value opaque to the vacuum logic). -/
def TRASHED_ID : String := "11111111111111111111111111111111"

/-- A row of the objects table as selected by the vacuum queries:
`zoid`, `parent_id` (nullable), `tid`, and the `of` column used in
`WHERE of is NULL` filters (nullable). -/
structure DBRecord where
  zoid : String
  parent_id : Option String
  tid : Int
  ofCol : Option String
deriving DecidableEq, Repr

/-- The entry built for one search hit in `Vacuum.check_missing`
(vacuum.py lines 314-322): stored field `tid` defaulted to `-1` when absent,
stored field `parent_uuid` defaulted to `'_missing_'` when absent. -/
structure ESEntry where
  tid : Int
  parent_uuid : String
deriving DecidableEq, Repr

/-- A search hit as read by `Vacuum.check_missing`: the document `_id` and the
two stored fields requested (`tid,parent_uuid`), each possibly absent.
An absent or empty stored-field list is modelled as `none` (the code applies
`or [-1]` resp. a `['_missing_']` default). -/
structure ESHit where
  id : String
  fields_tid : Option Int
  fields_parent : Option String
deriving DecidableEq, Repr

/-- vacuum.py lines 317-322: build the `es_batch` entry for one hit. -/
def esEntryOf (h : ESHit) : ESEntry :=
  { tid := h.fields_tid.getD (-1)
    parent_uuid := h.fields_parent.getD "_missing_" }

/-- vacuum.py lines 314-322: `es_batch` as a lookup function. Successive hits
with the same `_id` overwrite earlier ones (dict assignment), so the last
matching hit wins. -/
def esBatch (hits : List ESHit) (oid : String) : Option ESEntry :=
  ((hits.filter (fun h => h.id = oid)).getLast?).map esEntryOf

/-- Outcome of the per-record classification chain in `Vacuum.check_missing`
(vacuum.py lines 323-336). -/
inductive Classification where
  | skip
  | missing
  | outOfDate
  | misplaced
  | consistent
deriving DecidableEq, Repr

/-- vacuum.py lines 323-336: classify one store record of a page against the
`es_batch` lookup built for that page. `containerOid` is
`self.container._p_oid`. -/
def classify (containerOid : String) (es : String → Option ESEntry)
    (r : DBRecord) : Classification :=
  if r.zoid = containerOid then
    .skip
  else
    match es r.zoid with
    | none => .missing
    | some e =>
      if r.tid > e.tid ∧ e.tid ≠ -1 then .outOfDate
      else if r.parent_id ≠ some e.parent_uuid then .misplaced
      else .consistent

/-- The arguments `(index_type, folder)` with which `Vacuum.check_missing`
calls `Vacuum.process_missing` for a classified record, `none` when no call
is made (vacuum.py lines 328-336; `process_missing` defaults are
`index_type='missing'`, `folder=False`). -/
def processMissingArgs (c : Classification) : Option (String × Bool) :=
  match c with
  | .missing => some ("missing", false)
  | .outOfDate => some ("out of date", false)
  | .misplaced => some ("missing", true)
  | .skip => none
  | .consistent => none

/-- The result-set state mutated by `Vacuum.check_missing` and
`Vacuum.check_orphans` (vacuum.py lines 69-71). -/
structure VacSets where
  orphaned : Finset String
  missing : Finset String
  out_of_date : Finset String
deriving DecidableEq

/-- Effect of classifying one record on the result sets
(vacuum.py lines 328-336): a missing record and a misplaced record are both
added to `self.missing`; an out-of-date record is added to
`self.out_of_date`. -/
def applyRecord (containerOid : String) (es : String → Option ESEntry)
    (st : VacSets) (r : DBRecord) : VacSets :=
  match classify containerOid es r with
  | .missing => { st with missing := insert r.zoid st.missing }
  | .outOfDate => { st with out_of_date := insert r.zoid st.out_of_date }
  | .misplaced => { st with missing := insert r.zoid st.missing }
  | .skip => st
  | .consistent => st

/-! ## Object materializer (`Vacuum.get_object`, vacuum.py lines 157-176) and
repair dispatch (`Vacuum.process_missing`, vacuum.py lines 178-195) -/

/-- A materialized object: the deserialized row together with its resolved
parent chain (`obj.__parent__` is attached recursively,
vacuum.py lines 172-176). -/
inductive MatObj where
  | leaf (oid : String)
  | node (oid : String) (parent : MatObj)
deriving DecidableEq, Repr

/-- A raw row as returned by a cache layer or `storage.load`: whether
deserializing it with `reader` succeeds (`shapeOk`), and its `parent_id`
field. -/
structure RawRow where
  shapeOk : Bool
  parent_id : Option String
deriving DecidableEq, Repr

/-- The Python exceptions that can escape `Vacuum.get_object`:
`notFound` models `KeyError` (no row for the id), `malformed` models
`AttributeError`/`TypeError` (unexpected row shape / broken ancestry), and
`depthExceeded` models `RecursionError` on an unbounded parent chain
(fuel exhaustion in the embedding). -/
inductive MatError where
  | notFound
  | malformed
  | depthExceeded
deriving DecidableEq, Repr

/-- The caches and the store visible to `Vacuum.get_object`:
`cache` is `self.cache` (the LRU(200), capacity irrelevant to reads),
`hardCache` the process-wide hot cache (`_hard_cache` / module `HARD_CACHE`),
`txnCache` the transaction cache (`self.txn._cache`), and `storage` the
durable load (`self.tm._storage.load`, `none` raising `KeyError`). -/
structure MatState where
  cache : String → Option MatObj
  hardCache : String → Option RawRow
  txnCache : String → Option RawRow
  storage : String → Option RawRow

/-- vacuum.py lines 161-170: the `result` computed below the LRU check of
`Vacuum.get_object` — read-through hot cache, then transaction cache, then
durable load. -/
def lookupRow (st : MatState) (oid : String) : Option RawRow :=
  match st.hardCache oid with
  | some r => some r
  | none =>
    match st.txnCache oid with
    | some r => some r
    | none => st.storage oid

/-- vacuum.py lines 169-176: deserialize the row found by `lookupRow` and
recursively resolve the parent when `result['parent_id']` is truthy
(`None` and the empty string are falsy). `recurse` is the recursive
`self.get_object` call for the parent. -/
def resolveLower (st : MatState) (oid : String)
    (recurse : String → Except MatError MatObj × MatState) :
    Except MatError MatObj × MatState :=
  match lookupRow st oid with
  | none => (.error .notFound, st)
  | some row =>
    if row.shapeOk = false then (.error .malformed, st)
    else
      match row.parent_id with
      | none => (.ok (.leaf oid), st)
      | some pid =>
        if pid = "" then (.ok (.leaf oid), st)
        else
          match recurse pid with
          | (.error e, st2) => (.error e, st2)
          | (.ok p, st2) => (.ok (.node oid p), st2)

/-- vacuum.py lines 157-176: `Vacuum.get_object`, state-passing. The LRU
`self.cache` is consulted first; on a hit the cached object is returned.
The fuel bounds the parent-chain recursion depth. -/
def getObjectS (st : MatState) : Nat → String → Except MatError MatObj × MatState
  | 0, _ => (.error .depthExceeded, st)
  | fuel + 1, oid =>
    match st.cache oid with
    | some obj => (.ok obj, st)
    | none => resolveLower st oid (getObjectS st fuel)

/-- A call made on the migrator by `Vacuum.process_missing`
(vacuum.py lines 190-193): `process_object` for the folder path,
`index_object` otherwise. -/
inductive MigCall where
  | indexObject (oid : String)
  | processObject (oid : String)
deriving DecidableEq, Repr

/-- vacuum.py lines 178-195: `Vacuum.process_missing`. Returns `.ok` with the
migrator call made (`none` when the object could not be materialized) and the
warnings logged; `KeyError`, `AttributeError` and `TypeError` from
`get_object` are caught, logged and swallowed, anything else propagates. -/
def processMissingS (st : MatState) (fuel : Nat) (oid : String)
    (indexType : String) (folder : Bool) :
    Except MatError (Option MigCall × List String) × MatState :=
  let firstLog := "Index " ++ indexType ++ " " ++ oid
  match getObjectS st fuel oid with
  | (.error .notFound, st2) =>
    (.ok (none, [firstLog, "Could not find " ++ oid]), st2)
  | (.error .malformed, st2) =>
    (.ok (none, [firstLog, "Could not find " ++ oid]), st2)
  | (.error .depthExceeded, st2) => (.error .depthExceeded, st2)
  | (.ok _, st2) =>
    (.ok (some (if folder then .processObject oid else .indexObject oid),
      [firstLog]), st2)

/-- Materialize a sequence of ids one after the other, threading the state
(the shape of repeated `get_object` calls during a staleness pass). -/
def materializeAll (fuel : Nat) : MatState → List String → MatState
  | st, [] => st
  | st, oid :: rest => materializeAll fuel (getObjectS st fuel oid).2 rest

/-! ## Primary store scanner (`Vacuum.iter_paged_db_keys`,
vacuum.py lines 119-155) and mode selection (`Vacuum.check_missing`,
vacuum.py lines 289-296) -/

/-- Bounded chunking with explicit fuel (structural, so concrete instances
evaluate): split `xs` into consecutive chunks of size `sz`. Models repeated
`cur.fetch(PAGE_SIZE)` on a cursor over `xs`, which yields pages of at most
`PAGE_SIZE` rows until the cursor is exhausted. -/
def chunksOfGo {α : Type} (sz : Nat) : Nat → List α → List (List α)
  | _, [] => []
  | 0, xs => [xs]
  | fuel + 1, x :: xs => ((x :: xs).take sz) :: chunksOfGo sz fuel ((x :: xs).drop sz)

/-- Split a list into consecutive chunks of size `sz` (fuel `xs.length`
suffices for any `sz > 0`). -/
def chunksOf {α : Type} (sz : Nat) (xs : List α) : List (List α) :=
  chunksOfGo sz xs.length xs

/-- Insertion of a record into a list sorted by `(tid ASC, zoid ASC)`. -/
def insertByTidZoid (r : DBRecord) : List DBRecord → List DBRecord
  | [] => [r]
  | s :: rest =>
    if r.tid < s.tid ∨ (r.tid = s.tid ∧ r.zoid ≤ s.zoid) then r :: s :: rest
    else s :: insertByTidZoid r rest

/-- Sort records by `(tid ASC, zoid ASC)` (insertion sort; models the
`ORDER BY tid ASC, zoid ASC` of `GET_OBS_BY_TID`). -/
def sortByTidZoid : List DBRecord → List DBRecord
  | [] => []
  | r :: rest => insertByTidZoid r (sortByTidZoid rest)

/-- `GET_OBS_BY_TID` (vacuum.py lines 37-42): all rows with `of is NULL`,
ordered by `tid ASC, zoid ASC`. Note: no lower bound on `tid` appears in the
query. -/
def getObsByTid (table : List DBRecord) : List DBRecord :=
  sortByTidZoid (table.filter (fun r => r.ofCol = none))

/-- `GET_CONTAINERS` (vacuum.py line 26) as executed in `check_missing`
(line 292): zoids of rows whose `parent_id` is `ROOT_ID`. -/
def getContainers (table : List DBRecord) : List String :=
  (table.filter (fun r => r.parent_id = some ROOT_ID)).map DBRecord.zoid

/-- vacuum.py lines 294-296: `use_tid_query` starts `True` and is set `False`
exactly when more than one container exists. -/
def useTidQuery (table : List DBRecord) : Bool :=
  if (getContainers table).length > 1 then false else true

/-- The zoids filtered out of every tid-mode page
(vacuum.py lines 129-132). -/
def specialIds (containerOid : String) : List String :=
  [ROOT_ID, TRASHED_ID, containerOid]

/-- vacuum.py lines 120-137: the tid-query branch of `iter_paged_db_keys` —
fetch `PAGE_SIZE`-bounded pages of the `GET_OBS_BY_TID` cursor, dropping
`ROOT_ID`, `TRASHED_ID` and the container's own zoid from each page. The
pages depend only on the table and the container oid: the checkpointed
`last_tid` is not part of the query. -/
def tidModePages (containerOid : String) (table : List DBRecord) :
    List (List DBRecord) :=
  (chunksOf PAGE_SIZE (getObsByTid table)).map
    (fun page => page.filter (fun r => ¬ r.zoid ∈ specialIds containerOid))

/-- Insertion into a list of records sorted by `parent_id`
(lexicographic on the `Option`-defaulted string). -/
def insertByParent (r : DBRecord) : List DBRecord → List DBRecord
  | [] => [r]
  | s :: rest =>
    if r.parent_id.getD "" ≤ s.parent_id.getD "" then r :: s :: rest
    else s :: insertByParent r rest

/-- Sort records by `parent_id` (models `ORDER BY parent_id` of
`GET_CHILDREN_BY_PARENT`). -/
def sortByParent : List DBRecord → List DBRecord
  | [] => []
  | r :: rest => insertByParent r (sortByParent rest)

/-- `GET_CHILDREN_BY_PARENT` (vacuum.py lines 28-33): rows with `of is NULL`
whose `parent_id` is among the given oids, ordered by `parent_id`. -/
def getChildrenByParent (table : List DBRecord) (oids : List String) :
    List DBRecord :=
  sortByParent (table.filter
    (fun r => r.ofCol = none ∧ r.parent_id ∈ oids.map some))

/-- vacuum.py lines 142-149: the slices `oids[pos:pos + PAGE_SIZE]` taken by
the fallback branch. `pos` starts at `0`, each iteration advances it by
`PAGE_SIZE`, and a slice is taken while `pos * PAGE_SIZE < len(oids)`
(exactly as written in the source: the loop condition multiplies `pos` by
`PAGE_SIZE` even though `pos` already advances by `PAGE_SIZE`). -/
def fallbackSlicesGo (oids : List String) : Nat → Nat → List (List String)
  | 0, _ => []
  | fuel + 1, pos =>
    if pos * PAGE_SIZE < oids.length then
      ((oids.drop pos).take PAGE_SIZE) :: fallbackSlicesGo oids fuel (pos + PAGE_SIZE)
    else []

/-- The slices of parent oids queried in one round of the fallback branch. -/
def fallbackSlices (oids : List String) : List (List String) :=
  fallbackSlicesGo oids (oids.length + 1) 0

/-- One round of the fallback branch (vacuum.py lines 143-154): for each
slice of parent oids, page through the children cursor in
`PAGE_SIZE`-bounded fetches, yielding each non-empty page. -/
def fallbackRound (table : List DBRecord) (oids : List String) :
    List (List DBRecord) :=
  ((fallbackSlices oids).map
    (fun slice => chunksOf PAGE_SIZE (getChildrenByParent table slice))).flatten

/-- vacuum.py lines 138-155: the fallback branch of `iter_paged_db_keys` —
starting from the given oids, repeatedly yield the pages of one round and
continue with the zoids collected from those pages (`new_oids`), stopping
when a round collects none. Fuel bounds the number of rounds. -/
def fallbackPages (table : List DBRecord) : Nat → List String → List (List DBRecord)
  | 0, _ => []
  | fuel + 1, oids =>
    if oids = [] then []
    else
      let pages := fallbackRound table oids
      pages ++ fallbackPages table fuel ((pages.flatten).map DBRecord.zoid)

/-- The scanner state read by `check_missing`: the container's oid and the
checkpointed `last_tid` handed to the `Vacuum` constructor
(vacuum.py lines 64, 78, 379-382). -/
structure VacScanState where
  containerOid : String
  lastTid : Int
deriving DecidableEq, Repr

/-- vacuum.py lines 289-299: the pages produced for `check_missing` — the
tid-ordered traversal when at most one container exists, otherwise the
fallback parent-id traversal seeded with `[self.container._p_oid]`. -/
def scanPages (st : VacScanState) (table : List DBRecord) (fuel : Nat) :
    List (List DBRecord) :=
  if useTidQuery table then tidModePages st.containerOid table
  else fallbackPages table fuel [st.containerOid]

/-- vacuum.py lines 323-327: of a run of pages, the records that reach the
classification chain — everything except the container's own zoid. -/
def recordsHandedToClassification (containerOid : String)
    (pages : List (List DBRecord)) : List DBRecord :=
  pages.flatten.filter (fun r => r.zoid ≠ containerOid)

/-! ## Orphan reconciler (`Vacuum.check_orphans`, vacuum.py lines 219-265) -/

/-- `SELECT_BY_KEYS` (vacuum.py line 27): the zoids of the rows whose zoid is
among the batch — the store existence check for one page. -/
def storeFetch (table : List DBRecord) (batch : List String) : List String :=
  (table.filter (fun r => r.zoid ∈ batch)).map DBRecord.zoid

/-- vacuum.py lines 230-233: `set(es_batch) - db_batch`, the ids of the page
absent from the existence-check result (dedup models the set; only
membership matters downstream). -/
def orphanedOf (table : List DBRecord) (batch : List String) : List String :=
  batch.dedup.filter (fun k => ¬ k ∈ storeFetch table batch)

/-- The externally visible actions of `check_orphans`, in program order:
the store existence query for a page, and the delete-by-query request. -/
inductive OrphanEvent where
  | existsQuery (page : List String)
  | deleteByQuery (index : String) (ids : List String)
deriving DecidableEq, Repr

/-- vacuum.py lines 225-255: the events of processing one `(page, index)`
pair — the existence query first, then, only when the orphan set is
non-empty, one delete-by-query for exactly those ids against that page's
index. -/
def orphanPageEvents (table : List DBRecord) (p : List String × String) :
    List OrphanEvent :=
  let orphaned := orphanedOf table p.1
  .existsQuery p.1 ::
    (if orphaned = [] then [] else [.deleteByQuery p.2 orphaned])

/-- vacuum.py lines 225-255: the event trace of a whole `check_orphans` run
over the pages produced by the index scanner. -/
def checkOrphansTrace (table : List DBRecord)
    (pages : List (List String × String)) : List OrphanEvent :=
  (pages.map (orphanPageEvents table)).flatten

/-! ## Index scanner (`Vacuum.iter_batched_es_keys`,
vacuum.py lines 88-117) -/

/-- One response of the search/scroll API as read by the code: the page of
hits (ids only, `_source=False`) and the scroll id for the continuation. -/
structure EsPage where
  hits : List String
  scrollId : String
deriving DecidableEq, Repr

/-- One scroll continuation outcome: a result, or a
`TransportError` raised by the call. -/
inductive ScrollResp where
  | ok (result : EsPage)
  | transportError
deriving DecidableEq, Repr

/-- vacuum.py lines 105-117: the scroll loop for one index. Stops when the
scroll id is falsy, when a continuation raises `TransportError` (caught,
loop broken), or when a continuation returns no hits; otherwise yields the
hits and continues with the new scroll id. The scroll responses are the
oracle of successive `conn.scroll` results. -/
def scrollPages : String → List ScrollResp → List (List String)
  | _, [] => []
  | sid, r :: rest =>
    if sid = "" then []
    else
      match r with
      | .transportError => []
      | .ok res =>
        if res.hits = [] then []
        else res.hits :: scrollPages res.scrollId rest

/-- One index partition as seen by the scanner: its name, the first search
result (vacuum.py lines 95-103) and the successive scroll responses. -/
structure IndexStream where
  name : String
  firstResult : EsPage
  scrolls : List ScrollResp
deriving DecidableEq, Repr

/-- vacuum.py lines 94-117: the `(page, index_name)` pairs yielded for one
index — the first search page unconditionally, then the scroll pages. -/
def indexPages (s : IndexStream) : List (List String × String) :=
  (s.firstResult.hits, s.name) ::
    (scrollPages s.firstResult.scrollId s.scrolls).map (fun p => (p, s.name))

/-- vacuum.py lines 88-117: `iter_batched_es_keys` — the indexes are iterated
sequentially, each one's pages yielded before the next index starts. -/
def iterBatchedEsKeys (streams : List IndexStream) :
    List (List String × String) :=
  (streams.map indexPages).flatten

/-- The per-pass summary printed by `VacuumCommand.do_check`
(vacuum.py lines 390-394): orphaned cleaned, missing added, out-of-date
fixed — the only three counts reported. -/
structure Summary where
  orphanedCleaned : Nat
  missingAdded : Nat
  outOfDateFixed : Nat
deriving DecidableEq, Repr

/-- vacuum.py lines 390-394: the summary is built from the sizes of the three
result sets. -/
def summaryOf (st : VacSets) : Summary :=
  { orphanedCleaned := st.orphaned.card
    missingAdded := st.missing.card
    outOfDateFixed := st.out_of_date.card }

/-! ## Helper lemmas -/

/-- Unfolding of `classify` for a record present in the index result that is
not the container itself. -/
theorem classify_present (containerOid : String) (es : String → Option ESEntry)
    (r : DBRecord) (e : ESEntry) (hpres : es r.zoid = some e)
    (hne : r.zoid ≠ containerOid) :
    classify containerOid es r =
      (if r.tid > e.tid ∧ e.tid ≠ -1 then .outOfDate
       else if r.parent_id ≠ some e.parent_uuid then .misplaced
       else .consistent) := by
  simp only [classify, if_neg hne, hpres]

/-- A present record that is not behind but whose parent differs is
classified misplaced. -/
theorem classify_misplaced_of (containerOid : String)
    (es : String → Option ESEntry) (r : DBRecord) (e : ESEntry)
    (hpres : es r.zoid = some e) (hne : r.zoid ≠ containerOid)
    (hnotstale : ¬ (r.tid > e.tid ∧ e.tid ≠ -1))
    (hmis : r.parent_id ≠ some e.parent_uuid) :
    classify containerOid es r = .misplaced := by
  rw [classify_present containerOid es r e hpres hne, if_neg hnotstale,
    if_pos hmis]

/-- Unfolding of the orphan trace over a cons of pages. -/
theorem checkOrphansTrace_cons (table : List DBRecord)
    (p : List String × String) (rest : List (List String × String)) :
    checkOrphansTrace table (p :: rest) =
      orphanPageEvents table p ++ checkOrphansTrace table rest := by
  simp [checkOrphansTrace]

/-- Membership in the orphan set of a page means: member of the page, not
returned by the existence query for that page. -/
theorem mem_orphanedOf {table : List DBRecord} {page : List String}
    {id : String} (h : id ∈ orphanedOf table page) :
    id ∈ page ∧ id ∉ storeFetch table page := by
  simp only [orphanedOf, List.mem_filter, List.mem_dedup, decide_not,
    Bool.not_eq_eq_eq_not, Bool.not_true, decide_eq_false_iff_not] at h
  exact h

/-- `get_object` never writes any state: the state component of its result is
the input state (the LRU in particular is only read,
vacuum.py lines 157-176). -/
theorem getObjectS_state (st : MatState) (fuel : Nat) :
    ∀ oid, (getObjectS st fuel oid).2 = st := by
  induction fuel with
  | zero => intro oid; rfl
  | succ fuel ih =>
    intro oid
    simp only [getObjectS]
    cases hc : st.cache oid with
    | some obj => rfl
    | none =>
      simp only [resolveLower]
      cases hrow : lookupRow st oid with
      | none => rfl
      | some row =>
        by_cases hshape : row.shapeOk = false
        · simp [hshape]
        · simp only [hshape, if_neg]
          cases hpid : row.parent_id with
          | none => simp
          | some pid =>
            by_cases hemp : pid = ""
            · simp [hemp, hshape]
            · have hih := ih pid
              rcases hg : getObjectS st fuel pid with ⟨res, st2⟩
              rw [hg] at hih
              cases res <;> simp [hemp, hshape, hg] <;> exact hih

/-- The scroll loop of one partition stops at the first transport error:
responses after the error contribute nothing. -/
theorem scrollPages_stops_at_error (xs rest : List ScrollResp) :
    ∀ sid, scrollPages sid (xs ++ .transportError :: rest) =
      scrollPages sid xs := by
  induction xs with
  | nil =>
    intro sid
    show scrollPages sid (.transportError :: rest) = scrollPages sid []
    simp only [scrollPages]
    split <;> rfl
  | cons r xs ih =>
    intro sid
    rw [List.cons_append]
    simp only [scrollPages]
    by_cases hsid : sid = ""
    · rw [if_pos hsid, if_pos hsid]
    · rw [if_neg hsid, if_neg hsid]
      cases r with
      | transportError => rfl
      | ok res =>
        show (if res.hits = [] then []
            else res.hits ::
              scrollPages res.scrollId (xs ++ .transportError :: rest)) =
          (if res.hits = [] then []
            else res.hits :: scrollPages res.scrollId xs)
        by_cases hh : res.hits = []
        · rw [if_pos hh, if_pos hh]
        · rw [if_neg hh, if_neg hh, ih]

/-- The index scanner processes partitions sequentially: the pages of a run
split as the runs of the partitions, in order. -/
theorem iterBatchedEsKeys_append (pre post : List IndexStream)
    (s : IndexStream) :
    iterBatchedEsKeys (pre ++ s :: post) =
      iterBatchedEsKeys pre ++ indexPages s ++ iterBatchedEsKeys post := by
  simp [iterBatchedEsKeys, List.append_assoc]

/-- Every chunk produced by `chunksOfGo` has at most `sz` elements, provided
the fuel covers the list. -/
theorem chunksOfGo_length_le {α : Type} (sz : Nat) (hsz : 0 < sz) :
    ∀ (fuel : Nat) (xs : List α), xs.length ≤ fuel →
      ∀ c ∈ chunksOfGo sz fuel xs, c.length ≤ sz := by
  intro fuel
  induction fuel with
  | zero =>
    intro xs hlen c hc
    cases xs with
    | nil => cases hc
    | cons x xs => simp at hlen
  | succ fuel ih =>
    intro xs hlen c hc
    cases xs with
    | nil => cases hc
    | cons x xs =>
      simp only [chunksOfGo] at hc
      rcases List.mem_cons.mp hc with h | h
      · subst h
        exact List.length_take_le sz _
      · refine ih ((x :: xs).drop sz) ?_ c h
        simp only [List.length_drop, List.length_cons]
        simp only [List.length_cons] at hlen
        omega

/-- Every chunk produced by `chunksOf` has at most `sz` elements. -/
theorem chunksOf_length_le {α : Type} (sz : Nat) (hsz : 0 < sz)
    (xs : List α) : ∀ c ∈ chunksOf sz xs, c.length ≤ sz :=
  chunksOfGo_length_le sz hsz xs.length xs (le_refl _)

/-- Every tid-mode page holds at most `PAGE_SIZE` records. -/
theorem tidModePages_length_le (co : String) (table : List DBRecord) :
    ∀ page ∈ tidModePages co table, page.length ≤ PAGE_SIZE := by
  intro page hp
  simp only [tidModePages, List.mem_map] at hp
  obtain ⟨c, hc, rfl⟩ := hp
  exact le_trans (List.length_filter_le _ c)
    (chunksOf_length_le PAGE_SIZE (by norm_num [PAGE_SIZE]) _ c hc)

/-- Every page of one fallback round holds at most `PAGE_SIZE` records. -/
theorem fallbackRound_length_le (table : List DBRecord) (oids : List String) :
    ∀ page ∈ fallbackRound table oids, page.length ≤ PAGE_SIZE := by
  intro page hp
  simp only [fallbackRound, List.mem_flatten, List.mem_map] at hp
  obtain ⟨l, ⟨slice, hslice, rfl⟩, hpl⟩ := hp
  exact chunksOf_length_le PAGE_SIZE (by norm_num [PAGE_SIZE]) _ page hpl

/-- Every fallback page holds at most `PAGE_SIZE` records. -/
theorem fallbackPages_length_le (table : List DBRecord) :
    ∀ (fuel : Nat) (oids : List String),
      ∀ page ∈ fallbackPages table fuel oids, page.length ≤ PAGE_SIZE := by
  intro fuel
  induction fuel with
  | zero => intro oids page hp; cases hp
  | succ fuel ih =>
    intro oids page hp
    simp only [fallbackPages] at hp
    by_cases h : oids = []
    · rw [if_pos h] at hp; cases hp
    · rw [if_neg h] at hp
      rcases List.mem_append.mp hp with h1 | h1
      · exact fallbackRound_length_le table oids page h1
      · exact ih _ page h1

/-- The fallback recursion with an empty seed produces nothing. -/
theorem fallbackPages_nil (table : List DBRecord) :
    ∀ fuel, fallbackPages table fuel [] = [] := by
  intro fuel
  cases fuel with
  | zero => rfl
  | succ fuel => simp [fallbackPages]

/-! ## Claim theorems -/

/-- C1: for a store record of a scanned page whose id is present in the index
query result (and which is not the container itself), the staleness
reconciler schedules a repair — makes a `process_missing` call — iff the
indexed tid is strictly less than the record's tid with the indexed tid not
the unknown sentinel `-1`, or the indexed parent differs from the record's
parent; when neither holds the record is consistent and no call is made. -/
theorem claim_C1_staleness_repair_iff (containerOid : String)
    (es : String → Option ESEntry) (r : DBRecord) (e : ESEntry)
    (hpres : es r.zoid = some e) (hne : r.zoid ≠ containerOid) :
    (processMissingArgs (classify containerOid es r)).isSome = true ↔
      ((e.tid < r.tid ∧ e.tid ≠ -1) ∨ r.parent_id ≠ some e.parent_uuid) := by
  rw [classify_present containerOid es r e hpres hne]
  by_cases h1 : r.tid > e.tid ∧ e.tid ≠ -1
  · rw [if_pos h1]
    simp only [processMissingArgs, Option.isSome_some, true_iff]
    exact Or.inl h1
  · rw [if_neg h1]
    by_cases h2 : r.parent_id ≠ some e.parent_uuid
    · rw [if_pos h2]
      simp only [processMissingArgs, Option.isSome_some, true_iff]
      exact Or.inr h2
    · rw [if_neg h2]
      simp only [processMissingArgs, Option.isSome_none, Bool.false_eq_true,
        false_iff]
      rintro (ha | hb)
      · exact h1 ha
      · exact h2 hb

/-- Witness for C1 at a concrete input: indexed tid 3 behind record tid 5
schedules a repair. -/
theorem claim_C1_witness :
    (processMissingArgs (classify "c" (esBatch [⟨"b", some 3, some "p"⟩])
      ⟨"b", some "p", 5, none⟩)).isSome = true :=
  (claim_C1_staleness_repair_iff "c" (esBatch [⟨"b", some 3, some "p"⟩])
    ⟨"b", some "p", 5, none⟩ ⟨3, "p"⟩ (by decide) (by decide)).mpr
    (Or.inl (by decide))

/-- C4: a record present in the index, not behind on tid, but with a parent
mismatch is classified misplaced; `check_missing` calls `process_missing`
with `folder=True` for it, and a `folder=True` call that reaches the
migrator dispatches `process_object` (the full-subtree path), never
`index_object`. -/
theorem claim_C4_misplaced_escalation (containerOid : String)
    (es : String → Option ESEntry) (r : DBRecord) (e : ESEntry)
    (hpres : es r.zoid = some e) (hne : r.zoid ≠ containerOid)
    (hnotstale : ¬ (r.tid > e.tid ∧ e.tid ≠ -1))
    (hmis : r.parent_id ≠ some e.parent_uuid) :
    classify containerOid es r = .misplaced ∧
    processMissingArgs (classify containerOid es r) = some ("missing", true) ∧
    (∀ st fuel indexType call logs st2,
      processMissingS st fuel r.zoid indexType true =
        (.ok (some call, logs), st2) → call = .processObject r.zoid) := by
  have hc := classify_misplaced_of containerOid es r e hpres hne hnotstale hmis
  refine ⟨hc, by rw [hc]; rfl, ?_⟩
  intro st fuel indexType call logs st2 h
  unfold processMissingS at h
  rcases hg : getObjectS st fuel r.zoid with ⟨res, stg⟩
  rw [hg] at h
  cases res with
  | error e2 =>
    cases e2 <;> simp only at h <;> cases h
  | ok obj =>
    simp only at h
    cases h
    rfl

/-- Witness for C4 at a concrete input: record tid equal to indexed tid but
parent changed. -/
theorem claim_C4_witness :
    classify "c" (esBatch [⟨"b", some 5, some "p"⟩]) ⟨"b", some "q", 5, none⟩ =
      .misplaced :=
  (claim_C4_misplaced_escalation "c" (esBatch [⟨"b", some 5, some "p"⟩])
    ⟨"b", some "q", 5, none⟩ ⟨5, "p"⟩ (by decide) (by decide) (by decide)
    (by decide)).1

/-- C10: classifying a record as misplaced inserts its id into the `missing`
result set and leaves `out_of_date` (and `orphaned`) unchanged, so the
end-of-pass summary reports it under the missing count; the summary has no
separate misplaced count. -/
theorem claim_C10_misplaced_counted_as_missing (containerOid : String)
    (es : String → Option ESEntry) (st : VacSets) (r : DBRecord) (e : ESEntry)
    (hpres : es r.zoid = some e) (hne : r.zoid ≠ containerOid)
    (hnotstale : ¬ (r.tid > e.tid ∧ e.tid ≠ -1))
    (hmis : r.parent_id ≠ some e.parent_uuid) :
    (applyRecord containerOid es st r).missing = insert r.zoid st.missing ∧
    (applyRecord containerOid es st r).out_of_date = st.out_of_date ∧
    (applyRecord containerOid es st r).orphaned = st.orphaned ∧
    (summaryOf (applyRecord containerOid es st r)).outOfDateFixed =
      (summaryOf st).outOfDateFixed ∧
    (summaryOf (applyRecord containerOid es st r)).missingAdded =
      (insert r.zoid st.missing).card := by
  have hc := classify_misplaced_of containerOid es r e hpres hne hnotstale hmis
  unfold applyRecord
  rw [hc]
  exact ⟨rfl, rfl, rfl, rfl, rfl⟩

/-- Witness for C10 at a concrete input: a misplaced record lands in the
missing set and the out-of-date set stays empty. -/
theorem claim_C10_witness :
    (applyRecord "c" (esBatch [⟨"b", some 5, some "p"⟩]) ⟨∅, ∅, ∅⟩
      ⟨"b", some "q", 5, none⟩).missing = insert "b" (∅ : Finset String) ∧
    (applyRecord "c" (esBatch [⟨"b", some 5, some "p"⟩]) ⟨∅, ∅, ∅⟩
      ⟨"b", some "q", 5, none⟩).out_of_date = (∅ : Finset String) := by
  have h := claim_C10_misplaced_counted_as_missing "c"
    (esBatch [⟨"b", some 5, some "p"⟩]) ⟨∅, ∅, ∅⟩ ⟨"b", some "q", 5, none⟩
    ⟨5, "p"⟩ (by decide) (by decide) (by decide) (by decide)
  exact ⟨h.1, h.2.1⟩

/-- C2: whenever the orphan-check trace contains a delete-by-query event,
the ids deleted are exactly the orphan set of one scanned page of the same
partition, the existence query for that full page occurs strictly earlier in
the trace, and every deleted id was a member of that page and was not
returned by that page's store existence query. -/
theorem claim_C2_orphan_safety (table : List DBRecord)
    (pages : List (List String × String)) (pre suf : List OrphanEvent)
    (idx : String) (ids : List String)
    (hsplit : checkOrphansTrace table pages =
      pre ++ OrphanEvent.deleteByQuery idx ids :: suf) :
    ∃ page, (page, idx) ∈ pages ∧ OrphanEvent.existsQuery page ∈ pre ∧
      ids = orphanedOf table page ∧
      ∀ id ∈ ids, id ∈ page ∧ id ∉ storeFetch table page := by
  induction pages generalizing pre suf with
  | nil => simp [checkOrphansTrace] at hsplit
  | cons p rest ih =>
    rw [checkOrphansTrace_cons] at hsplit
    by_cases ho : orphanedOf table p.1 = []
    · rw [orphanPageEvents, ho, if_pos rfl] at hsplit
      cases pre with
      | nil => simp at hsplit
      | cons ev pre2 =>
        rw [List.cons_append] at hsplit
        injection hsplit with h1 h2
        simp only [List.append_eq, List.nil_append, List.cons_append] at h2
        obtain ⟨page, hmem, hq, hids, hfacts⟩ := ih pre2 suf h2
        exact ⟨page, List.mem_cons_of_mem p hmem, List.mem_cons_of_mem ev hq,
          hids, hfacts⟩
    · rw [orphanPageEvents, if_neg ho] at hsplit
      cases pre with
      | nil => simp at hsplit
      | cons ev pre2 =>
        rw [List.cons_append] at hsplit
        injection hsplit with h1 h2
        rw [List.singleton_append] at h2
        cases pre2 with
        | nil =>
          simp only [List.append_eq, List.nil_append] at h2
          injection h2 with h3 h4
          injection h3 with hidx hids
          refine ⟨p.1, ?_, ?_, hids.symm, ?_⟩
          · rw [← hidx]
            exact List.mem_cons_self _ _
          · rw [← h1]
            exact List.mem_cons_self _ _
          · intro id hid
            rw [← hids] at hid
            exact mem_orphanedOf hid
        | cons ev2 pre3 =>
          simp only [List.append_eq, List.cons_append] at h2
          injection h2 with h3 h4
          obtain ⟨page, hmem, hq, hids, hfacts⟩ := ih pre3 suf h4
          exact ⟨page, List.mem_cons_of_mem p hmem,
            List.mem_cons_of_mem ev (List.mem_cons_of_mem ev2 hq), hids, hfacts⟩

/-- Witness for C2 at a concrete input: store holds only `a`, the index page
holds `a` and `b`, so `b` is deleted after the page's existence query. -/
theorem claim_C2_witness :
    ∃ page, (page, "i1") ∈ [(["a", "b"], "i1")] ∧
      OrphanEvent.existsQuery page ∈ [OrphanEvent.existsQuery ["a", "b"]] ∧
      ["b"] = orphanedOf [⟨"a", none, 0, none⟩] page ∧
      ∀ id ∈ ["b"], id ∈ page ∧ id ∉ storeFetch [⟨"a", none, 0, none⟩] page :=
  claim_C2_orphan_safety [⟨"a", none, 0, none⟩] [(["a", "b"], "i1")]
    [OrphanEvent.existsQuery ["a", "b"]] [] "i1" ["b"] (by decide)

/-- C7: partitions are iterated sequentially, each one's pages contiguous and
in order; and when a transport error occurs during a partition's scroll
continuation, that partition's sequence ends with the pages already produced
(what follows the error contributes nothing), the error does not escape, and
the remaining partitions are still processed in full. -/
theorem claim_C7_scroll_error_degrades (pre post : List IndexStream)
    (s : IndexStream) (xs rest : List ScrollResp)
    (herr : s.scrolls = xs ++ .transportError :: rest) :
    iterBatchedEsKeys (pre ++ s :: post) =
      iterBatchedEsKeys pre ++ indexPages s ++ iterBatchedEsKeys post ∧
    indexPages s = indexPages ⟨s.name, s.firstResult, xs⟩ := by
  refine ⟨iterBatchedEsKeys_append pre post s, ?_⟩
  simp only [indexPages, herr, scrollPages_stops_at_error]

/-- Witness for C7 at a concrete input: the first partition errors on its
first scroll continuation; its initial page survives and the second
partition is still scanned. -/
theorem claim_C7_witness :
    iterBatchedEsKeys [⟨"i1", ⟨["a"], "s1"⟩, [ScrollResp.transportError]⟩,
        ⟨"i2", ⟨["b"], ""⟩, []⟩] =
      iterBatchedEsKeys [] ++
        indexPages ⟨"i1", ⟨["a"], "s1"⟩, [ScrollResp.transportError]⟩ ++
        iterBatchedEsKeys [⟨"i2", ⟨["b"], ""⟩, []⟩] ∧
    indexPages ⟨"i1", ⟨["a"], "s1"⟩, [ScrollResp.transportError]⟩ =
      indexPages ⟨"i1", ⟨["a"], "s1"⟩, []⟩ :=
  claim_C7_scroll_error_degrades [] [⟨"i2", ⟨["b"], ""⟩, []⟩]
    ⟨"i1", ⟨["a"], "s1"⟩, [ScrollResp.transportError]⟩ [] [] rfl

/-- C8: when materializing an id fails because no row exists for it or an
ancestor (`KeyError`), or because a row has an unexpected shape
(`AttributeError`/`TypeError`), `process_missing` returns normally with no
migrator call, having logged a warning, and leaves all state unchanged — the
staleness pass is not aborted. -/
theorem claim_C8_materializer_errors_swallowed (st : MatState) (fuel : Nat)
    (oid indexType : String) (folder : Bool)
    (herr : (getObjectS st fuel oid).1 = .error .notFound ∨
      (getObjectS st fuel oid).1 = .error .malformed) :
    processMissingS st fuel oid indexType folder =
      (.ok (none, ["Index " ++ indexType ++ " " ++ oid,
        "Could not find " ++ oid]), st) := by
  have hstate := getObjectS_state st fuel oid
  rcases hg : getObjectS st fuel oid with ⟨res, st2⟩
  rw [hg] at herr hstate
  simp only at herr hstate
  unfold processMissingS
  rw [hg]
  rcases herr with h | h <;> subst h <;> rw [hstate]

/-- Witness for C8 at a concrete input: an id absent from every cache layer
and from the store is logged and skipped. -/
theorem claim_C8_witness :
    processMissingS
      ⟨fun _ => none, fun _ => none, fun _ => none, fun _ => none⟩
      1 "x" "missing" false =
      (.ok (none, ["Index missing x", "Could not find x"]),
        ⟨fun _ => none, fun _ => none, fun _ => none, fun _ => none⟩) :=
  claim_C8_materializer_errors_swallowed
    ⟨fun _ => none, fun _ => none, fun _ => none, fun _ => none⟩
    1 "x" "missing" false (Or.inl rfl)

/-- C9: the materializer never writes the bounded LRU cache — any sequence of
materializations leaves the whole cache state exactly as it started (so an
initially empty LRU stays empty) — and on an LRU miss the lookup falls
through to the lower layers (hot cache, transaction cache, durable load). -/
theorem claim_C9_lru_read_only (st : MatState) (fuel : Nat) (oid : String)
    (oids : List String) :
    (getObjectS st fuel oid).2 = st ∧
    materializeAll fuel st oids = st ∧
    (st.cache oid = none →
      getObjectS st (fuel + 1) oid = resolveLower st oid (getObjectS st fuel)) := by
  refine ⟨getObjectS_state st fuel oid, ?_, ?_⟩
  · induction oids with
    | nil => rfl
    | cons o rest ih =>
      show materializeAll fuel (getObjectS st fuel o).2 rest = st
      rw [getObjectS_state st fuel o]
      exact ih
  · intro hmiss
    simp only [getObjectS, hmiss]

/-- Witness for C9 at a concrete input: with an empty LRU the lookup goes to
the lower layers and the state is untouched. -/
theorem claim_C9_witness :
    materializeAll 0
      ⟨fun _ => none, fun _ => none, fun _ => none, fun _ => none⟩ ["x", "y"] =
      ⟨fun _ => none, fun _ => none, fun _ => none, fun _ => none⟩ ∧
    getObjectS ⟨fun _ => none, fun _ => none, fun _ => none, fun _ => none⟩
        1 "x" =
      resolveLower ⟨fun _ => none, fun _ => none, fun _ => none, fun _ => none⟩
        "x" (getObjectS
          ⟨fun _ => none, fun _ => none, fun _ => none, fun _ => none⟩ 0) := by
  have h := claim_C9_lru_read_only
    ⟨fun _ => none, fun _ => none, fun _ => none, fun _ => none⟩ 0 "x" ["x", "y"]
  exact ⟨h.2.1, h.2.2 rfl⟩

/-- C3 (code-bug evidence): the tid-ordered scan does not resume from the
checkpoint. `GET_OBS_BY_TID` carries no lower bound on `tid`, so the pages
are identical for every checkpointed `lastTid`; concretely, with checkpoint
`lastTid = 5` a record with `tid = 1` is still processed. -/
theorem claim_C3_checkpoint_not_resumed :
    (∀ (st : VacScanState) (table : List DBRecord) (fuel : Nat) (t : Int),
      scanPages { st with lastTid := t } table fuel = scanPages st table fuel) ∧
    (⟨"a", some "c1", 1, none⟩ : DBRecord) ∈
      (scanPages ⟨"c1", 5⟩
        [⟨"c1", some ROOT_ID, 0, none⟩, ⟨"a", some "c1", 1, none⟩] 1).flatten ∧
    (⟨"a", some "c1", 1, none⟩ : DBRecord).tid ≤
      (⟨"c1", 5⟩ : VacScanState).lastTid := by
  refine ⟨fun st table fuel t => rfl, ?_, by norm_num⟩
  decide

/-- C5: the scanner uses the tid-ordered traversal exactly when at most one
container exists (so with any container present at all, only when that one
is the only one); with more than one it falls back to the parent-id
traversal; pages of both modes are bounded by `PAGE_SIZE`; and the fallback
repetition stops as soon as a round yields no ids. -/
theorem claim_C5_traversal_modes (st : VacScanState) (table : List DBRecord)
    (fuel : Nat) (oids : List String) :
    ((getContainers table).length = 1 → useTidQuery table = true) ∧
    (useTidQuery table = true → (getContainers table).length ≤ 1) ∧
    (1 < (getContainers table).length → useTidQuery table = false ∧
      scanPages st table fuel = fallbackPages table fuel [st.containerOid]) ∧
    (∀ page ∈ scanPages st table fuel, page.length ≤ PAGE_SIZE) ∧
    (fallbackRound table oids = [] →
      fallbackPages table (fuel + 1) oids = fallbackRound table oids) := by
  refine ⟨?_, ?_, ?_, ?_, ?_⟩
  · intro h
    simp [useTidQuery, h]
  · intro h
    by_contra hgt
    simp only [useTidQuery, if_pos (by omega : 1 < (getContainers table).length)] at h
    cases h
  · intro h
    have hq : useTidQuery table = false := by simp [useTidQuery, if_pos h]
    refine ⟨hq, ?_⟩
    simp [scanPages, hq]
  · intro page hp
    unfold scanPages at hp
    by_cases hq : useTidQuery table = true
    · rw [if_pos hq] at hp
      exact tidModePages_length_le st.containerOid table page hp
    · rw [if_neg hq] at hp
      exact fallbackPages_length_le table fuel _ page hp
  · intro hround
    by_cases h : oids = []
    · rw [hround]
      subst h
      exact fallbackPages_nil table _
    · simp only [fallbackPages, if_neg h, hround, List.nil_append,
        List.flatten_nil, List.map_nil]
      rw [fallbackPages_nil table fuel]

/-- Witness for C5 at a concrete input: one container means tid mode, its
single page is bounded, and an empty fallback round stops the recursion. -/
theorem claim_C5_witness :
    useTidQuery [⟨"c1", some ROOT_ID, 0, none⟩, ⟨"a", some "c1", 1, none⟩] =
      true ∧
    ([⟨"a", some "c1", 1, none⟩] : List DBRecord).length ≤ PAGE_SIZE ∧
    fallbackPages [⟨"c1", some ROOT_ID, 0, none⟩, ⟨"a", some "c1", 1, none⟩]
        1 [] =
      fallbackRound [⟨"c1", some ROOT_ID, 0, none⟩, ⟨"a", some "c1", 1, none⟩]
        [] := by
  have h := claim_C5_traversal_modes ⟨"c1", -2⟩
    [⟨"c1", some ROOT_ID, 0, none⟩, ⟨"a", some "c1", 1, none⟩] 0 []
  exact ⟨h.1 (by decide), h.2.2.2.1 [⟨"a", some "c1", 1, none⟩] (by decide),
    h.2.2.2.2 (by decide)⟩

/-- C6 counterexample: in fallback mode the scanner applies no special-id
filter, and the classification loop skips only the container's own id — on a
store where a row with zoid `ROOT_ID` is a child of the scanned container,
`ROOT_ID` is handed to classification, refuting the claim as stated. -/
theorem claim_C6_counterexample :
    useTidQuery
      [⟨"c1", some ROOT_ID, 0, none⟩, ⟨"c2", some ROOT_ID, 0, none⟩,
        ⟨ROOT_ID, some "c1", 1, none⟩] = false ∧
    ROOT_ID ∈ (recordsHandedToClassification "c1"
      (scanPages ⟨"c1", -2⟩
        [⟨"c1", some ROOT_ID, 0, none⟩, ⟨"c2", some ROOT_ID, 0, none⟩,
          ⟨ROOT_ID, some "c1", 1, none⟩] 1)).map DBRecord.zoid := by
  constructor
  · decide
  · decide

/-- C6 amended: in tid-ordered mode the scanner filters `ROOT_ID`,
`TRASHED_ID` and the container's own id out of every page; in both modes the
container's own id never reaches classification; the fallback mode applies
no filter for `ROOT_ID`/`TRASHED_ID` (see the counterexample). -/
theorem claim_C6_special_id_filtering (co : String) (table : List DBRecord)
    (pages : List (List DBRecord)) :
    (∀ page ∈ tidModePages co table, ∀ r ∈ page,
      r.zoid ≠ ROOT_ID ∧ r.zoid ≠ TRASHED_ID ∧ r.zoid ≠ co) ∧
    (∀ r ∈ recordsHandedToClassification co pages, r.zoid ≠ co) := by
  constructor
  · intro page hp r hr
    simp only [tidModePages, List.mem_map] at hp
    obtain ⟨c, hc, rfl⟩ := hp
    have h2 := (List.mem_filter.mp hr).2
    have h3 := of_decide_eq_true h2
    simp only [specialIds, List.mem_cons, List.not_mem_nil, or_false,
      not_or] at h3
    exact h3
  · intro r hr
    have h2 := (List.mem_filter.mp hr).2
    simpa using h2

/-- Witness for the amended C6 at a concrete input: the surviving record of a
tid-mode page is none of the special ids. -/
theorem claim_C6_witness :
    (⟨"a", some "c1", 1, none⟩ : DBRecord).zoid ≠ ROOT_ID ∧
    (⟨"a", some "c1", 1, none⟩ : DBRecord).zoid ≠ TRASHED_ID ∧
    (⟨"a", some "c1", 1, none⟩ : DBRecord).zoid ≠ "c1" :=
  (claim_C6_special_id_filtering "c1"
      [⟨"c1", some ROOT_ID, 0, none⟩, ⟨"a", some "c1", 1, none⟩] []).1
    [⟨"a", some "c1", 1, none⟩] (by decide) ⟨"a", some "c1", 1, none⟩
    (by decide)

end Vacuum
